import Mathlib

set_option linter.unusedVariables false

/-!
Verification development for the nexus-actors core runtime.

The definitions below are a shallow embedding of the TypeScript sources:
  - `URLRef` / `URLReference.child` / `URLReference.parent` embed
    `util/URLReference.ts` together with the WHATWG `new URL(input, base)`
    resolution semantics the class relies on.
  - `uuidCreateList` embeds `util/uuid.ts#create`.
  - `ExecState`, `allowedExecutorStateTransitions`, `assertState`,
    `assertNotEnd`, `transitionTo` embed `util/FSM.ts` as instantiated by the
    Executor of `core/Host.ts`.
  - `Exec`, `pushMessage`, `pushSupervisionRequest`, `startExec`, `kill`,
    `wakeDeliver` and the mutual interpreter `resume` / `superviseStep` /
    `receiveStep` / `raiseStep` / `catchReason` together with `terminate` and
    `endStep` embed the Executor class of `core/Host.ts`.  User behavior,
    the host supervise rendezvous, process release and the wall clock are
    oracles collected in `Env`; every observable call the Executor makes is
    recorded in an `Event` trace.  Promise recursion is modelled with a
    `fuel` parameter; running out of fuel is the distinguished
    `RunErr.outOfFuel`, separate from a thrown JavaScript value
    `RunErr.thrown`.
  - `ExecutorPool` and its operations embed `core/Scheduling.ts`
    (`Host.ExecutorPool`).  JavaScript `Map` keys of class `Supervision.Id`
    compare by object identity; identity is modelled by the `token` field of
    `SupId`, which the allocator (`Exec.nextSupId`) keeps unique, while
    `idStr` is the uuid string payload of the object.
  - `Packet`, `Host.receive` and the `Host.receive*` helpers embed the Host
    class of `node-cluster/Worker.ts`.
Thrown JavaScript exceptions are `Value`s: invariant errors
(`util/Invariant.ts` subclasses) and dynamic `TypeError`s are constructors
of `Value` so that `catch` clauses can be modelled faithfully.
-/

/-- A parsed absolute URL with an authority, as produced by the WHATWG URL
parser: scheme, host, and the path as its list of segments (a trailing slash
is an empty final segment, as in the WHATWG path representation). -/
structure URLRef where
  scheme : String
  host : String
  path : List String
deriving DecidableEq

/-- Serialization of a `URLRef`, matching `URL#toString` for these URLs.
This is the canonical string used as the pool key
(`ExecutorPool.keyOf = process.url.toString()`) and inside
`URLReference#toString`. -/
def URLRef.toString (u : URLRef) : String :=
  match u.path with
  | [] => u.scheme ++ ("://") ++ u.host
  | segs => u.scheme ++ ("://") ++ u.host ++ ("/") ++ String.intercalate ("/") segs

/-- Embeds `URLReference#child(path)`, i.e. `new URL(path, this.url.href)`,
for a plain single segment `path` (non-empty, no slash, not a dot segment).
WHATWG resolution of such a relative reference replaces the last segment of
the base path: path state first removes the base path's last item, then
appends the buffer. -/
def URLReference.child (u : URLRef) (name : String) : URLRef :=
  { u with path := u.path.dropLast ++ [name] }

/-- Embeds `URLReference#parent` and `Process.Reference#parent`, i.e.
`new URL("..", this.url.href)`.  WHATWG resolution: the relative state drops
the base path's last item, the double-dot segment shortens the path once
more, and at end of input an empty segment is appended. -/
def URLReference.parent (u : URLRef) : URLRef :=
  { u with path := u.path.dropLast.dropLast ++ [("")] }

/-- Embeds `Number#toString(16)` for a nibble value below 16 (lower case
hex digit), as used by `util/uuid.ts`. -/
def hexChar (v : Nat) : Char :=
  if v < 10 then Char.ofNat (48 + v) else Char.ofNat (87 + v)

/-- True for the lower-case hexadecimal digit characters. -/
def isHexDigit (c : Char) : Bool :=
  (48 ≤ c.toNat && c.toNat ≤ 57) || (97 ≤ c.toNat && c.toNat ≤ 102)

/-- Embeds `util/uuid.ts#create` as the list of produced characters.
`noise i` is the value of `(Math.random() * 16) | 0` at loop index `i`
(always in `0..15` since `Math.random()` is in `[0, 1)`).  The loop appends
a dash before indices 8, 12, 16 and 20, writes the literal version nibble 4
at index 12, and forces `(noise & 3) | 9` at index 16. -/
def uuidCreateList (noise : Nat → Fin 16) : List Char :=
  (List.range 32).foldl
    (fun result i =>
      let withDash :=
        if i = 8 ∨ i = 12 ∨ i = 16 ∨ i = 20 then result ++ [('-')] else result
      withDash ++
        [hexChar
          (if i = 12 then 4
           else if i = 16 then ((noise i).val &&& 3) ||| 9
           else (noise i).val)])
    []

/-- Embeds `util/uuid.ts#create` as a string. -/
def uuidCreate (noise : Nat → Fin 16) : String :=
  String.mk (uuidCreateList noise)

mutual
/-- A dynamic JavaScript value, as far as the embedded code inspects one:
`undefined`, strings, numbers, `Message.Message` instances, the
`InvariantError` subclasses of `util/Invariant.ts`, and the engine's
`TypeError`.  Thrown exceptions and opaque payload/state/reason values are
all `Value`s. -/
inductive Value where
  | vundefined
  | vstr (s : String)
  | vnat (n : Nat)
  | vmsg (m : Msg)
  | fsmInvariantError (description : String)
  | executorInvariantError (description : String)
  | hostInvariantError (description : String)
  | typeError (description : String)
/-- Embeds `core/Message.ts`: `Message.Message { sender, receiver, payload }`
with `Process.Reference`s represented by their URL. -/
inductive Msg where
  | mk (sender : URLRef) (receiver : URLRef) (payload : Value)
end

def Msg.sender : Msg → URLRef
  | Msg.mk s _ _ => s

def Msg.receiver : Msg → URLRef
  | Msg.mk _ r _ => r

def Msg.payload : Msg → Value
  | Msg.mk _ _ p => p

/-- Is this value one of the `InvariantError` subclasses of
`util/Invariant.ts`? -/
def isInvariantErrorValue : Value → Bool
  | Value.fsmInvariantError _ => true
  | Value.executorInvariantError _ => true
  | Value.hostInvariantError _ => true
  | _ => false

/-- Embeds `Supervision.Id`: a class instance wrapping a uuid string.
JavaScript `Map` keys compare such instances by object identity; `token` is
the identity of the instance (unique per `new Supervision.Id()`), `idStr`
its `id` string field. -/
structure SupId where
  token : Nat
  idStr : String
deriving DecidableEq

/-- Embeds `Supervision.Effect` (only `resume` and `stop` are supported). -/
inductive Effect where
  | resume
  | stop
deriving DecidableEq

/-- Embeds `Supervision.Request { id, child, reason }`. -/
structure SupRequest where
  id : SupId
  child : URLRef
  reason : Value

/-- Embeds `Supervision.Response { id, child, effect }`. -/
structure SupResponse where
  id : SupId
  child : URLRef
  effect : Effect

/-- Embeds `Supervision.Request#response(effect)`. -/
def SupRequest.response (r : SupRequest) (e : Effect) : SupResponse :=
  { id := r.id, child := r.child, effect := e }

/-- Embeds the `ExecutorState` union of `core/Host.ts`. -/
inductive ExecState where
  | start
  | sleeping
  | supervising
  | receiving
  | raising
  | terminating
  | end_
deriving DecidableEq

/-- Printable state names, as interpolated into FSM error messages. -/
def stateName : ExecState → String
  | ExecState.start => ("start")
  | ExecState.sleeping => ("sleeping")
  | ExecState.supervising => ("supervising")
  | ExecState.receiving => ("receiving")
  | ExecState.raising => ("raising")
  | ExecState.terminating => ("terminating")
  | ExecState.end_ => ("end")

/-- Embeds `allowedExecutorStateTransitions` of `core/Host.ts`. -/
def allowedExecutorStateTransitions : ExecState → List ExecState
  | ExecState.start => [ExecState.sleeping]
  | ExecState.sleeping =>
      [ExecState.terminating, ExecState.supervising, ExecState.receiving,
        ExecState.raising]
  | ExecState.supervising => [ExecState.raising, ExecState.sleeping]
  | ExecState.receiving => [ExecState.raising, ExecState.sleeping]
  | ExecState.raising => [ExecState.terminating, ExecState.sleeping]
  | ExecState.terminating => [ExecState.end_]
  | ExecState.end_ => []

/-- Embeds `FSM#assert(state => state === expected)`: throws
`FSMInvariantError("Assertion not matched")` when the predicate rejects. -/
def assertState (st expected : ExecState) : Except Value Unit :=
  if st = expected then Except.ok ()
  else Except.error (Value.fsmInvariantError ("Assertion not matched"))

/-- Embeds `FSM#assert(state => state !== "end")`. -/
def assertNotEnd (st : ExecState) : Except Value Unit :=
  if st = ExecState.end_ then
    Except.error (Value.fsmInvariantError ("Assertion not matched"))
  else Except.ok ()

/-- Embeds `FSM#transitionTo(nextState)`: fails with an
`FSMInvariantError` naming the two states when the transition is not
declared in `allowedExecutorStateTransitions`. -/
def transitionTo (cur next : ExecState) : Except Value ExecState :=
  if next ∈ allowedExecutorStateTransitions cur then Except.ok next
  else
    Except.error
      (Value.fsmInvariantError
        (("Transition from ") ++ stateName cur ++ (" to ") ++ stateName next ++
          (" is not allowed")))

/-- Embeds `Process.Stance`: opaque user `state` paired with a behavior.
The behavior callable (and its attached `supervise` strategy) is user code,
identified here by `behaviorId` and interpreted by the `Env` oracles. -/
structure Stance where
  state : Value
  behaviorId : Nat

/-- Embeds the `Process.Context` snapshot built by
`Executor#processContext()`: `{ self, state, send, spawn }` (the `send` and
`spawn` capabilities carry no data). -/
structure PCtx where
  self : URLRef
  state : Value

/-- Embeds the mutable fields of the Executor class of `core/Host.ts`. -/
structure Exec where
  self : URLRef
  children : List URLRef
  messages : List Msg
  requests : List SupRequest
  fsmSt : ExecState
  stance : Stance
  hasTerminationBeenRequested : Bool
  terminationReason : Value
  nextSupId : Nat

/-- Embeds `Executor.Tick`. -/
structure Tick where
  wallclock : Nat
deriving DecidableEq

/-- The external collaborators of one Executor, as deterministic oracles:
the user behavior callable and its `supervise` strategy (selected by
`Stance.behaviorId`), the `Executor.Context` callbacks `supervise` and
`releaseProcess` provided by Host, the wall clock behind `tick()`, and the
uuid generator behind `new Supervision.Id()` (indexed by the allocation
counter). -/
structure Env where
  wallclock : Nat
  freshIdStr : Nat → String
  behaviorHandle : Nat → PCtx → Value → Except Value Stance
  behaviorSupervise : Nat → PCtx → SupRequest → Except Value Effect
  contextSupervise : SupRequest → Except Value Effect
  releaseProcess : URLRef → Except Value Unit

/-- Observable calls an Executor makes while running: invoking user code,
publishing supervision responses, escalating via `context.supervise`,
releasing itself, and sampling the clock. -/
inductive Event where
  | behaviorCall (payload : Value)
  | superviseStrategyCall (request : SupRequest)
  | dispatchSupervisionResponse (response : SupResponse)
  | contextSuperviseCall (request : SupRequest)
  | releaseProcessCall (process : URLRef)
  | tickCall

/-- Outcome channel of a run: a thrown JavaScript value, or exhaustion of
the modelling fuel (an artifact of the embedding, not a program error). -/
inductive RunErr where
  | thrown (v : Value)
  | outOfFuel

/-- Result of running an Executor step: the ordered trace of observable
calls, the Executor fields afterwards (JavaScript exceptions do not roll
back mutations), and the returned `Tick` or the thrown value. -/
structure StepResult where
  events : List Event
  exec : Exec
  out : Except RunErr Tick

def noFuel (s : Exec) : StepResult :=
  { events := [], exec := s, out := Except.error RunErr.outOfFuel }

def thrownResult (evs : List Event) (s : Exec) (e : Value) : StepResult :=
  { events := evs, exec := s, out := Except.error (RunErr.thrown e) }

def prependEvents (evs : List Event) (r : StepResult) : StepResult :=
  { r with events := evs ++ r.events }

/-- Embeds `Executor#processContext()`. -/
def processContext (s : Exec) : PCtx :=
  { self := s.self, state := s.stance.state }

/-- Embeds `Executor#end()`: assert the `end` state and return a fresh
`Tick` from `context.tick()`. -/
def endStep (env : Env) (s : Exec) : StepResult :=
  match assertState s.fsmSt ExecState.end_ with
  | Except.error e => thrownResult [] s e
  | Except.ok _ =>
      { events := [Event.tickCall], exec := s,
        out := Except.ok { wallclock := env.wallclock } }

/-- Embeds `Executor#terminate(reason)` of `core/Host.ts`: assert
`terminating`, `await context.releaseProcess(self)` with no surrounding
try/catch (a failure propagates as thrown), then `transitionTo("end")` and
`end()`. -/
def terminate (env : Env) (s : Exec) (reason : Value) : StepResult :=
  match assertState s.fsmSt ExecState.terminating with
  | Except.error e => thrownResult [] s e
  | Except.ok _ =>
      match env.releaseProcess s.self with
      | Except.error e => thrownResult [Event.releaseProcessCall s.self] s e
      | Except.ok _ =>
          match transitionTo s.fsmSt ExecState.end_ with
          | Except.error e =>
              thrownResult [Event.releaseProcessCall s.self] s e
          | Except.ok st =>
              prependEvents [Event.releaseProcessCall s.self]
                (endStep env { s with fsmSt := st })

mutual
/-- Embeds `Executor#resume()` of `core/Host.ts`.  Assert `sleeping`; inside
the try block: a requested termination transitions to `terminating` and
terminates; else a pending supervision request is popped and handled first;
else a pending message is popped and handled; any value thrown inside the
try block is caught by `catchReason`.  With no work to do the code then runs
`this.fsm.transitionTo("sleeping")` (outside the try block) and returns
`context.tick()`. -/
def resume (env : Env) (fuel : Nat) (s : Exec) : StepResult :=
  match fuel with
  | 0 => noFuel s
  | Nat.succ f =>
      match assertState s.fsmSt ExecState.sleeping with
      | Except.error e => thrownResult [] s e
      | Except.ok _ =>
          if s.hasTerminationBeenRequested then
            match transitionTo s.fsmSt ExecState.terminating with
            | Except.error e => catchReason env f (thrownResult [] s e)
            | Except.ok st =>
                catchReason env f
                  (terminate env { s with fsmSt := st } s.terminationReason)
          else
            match s.requests with
            | request :: rest =>
                match transitionTo s.fsmSt ExecState.supervising with
                | Except.error e => catchReason env f (thrownResult [] s e)
                | Except.ok st =>
                    catchReason env f
                      (superviseStep env f
                        { s with requests := rest, fsmSt := st } request)
            | [] =>
                match s.messages with
                | message :: rest =>
                    match transitionTo s.fsmSt ExecState.receiving with
                    | Except.error e => catchReason env f (thrownResult [] s e)
                    | Except.ok st =>
                        catchReason env f
                          (receiveStep env f
                            { s with messages := rest, fsmSt := st } message)
                | [] =>
                    match transitionTo s.fsmSt ExecState.sleeping with
                    | Except.error e => thrownResult [] s e
                    | Except.ok st =>
                        { events := [Event.tickCall],
                          exec := { s with fsmSt := st },
                          out := Except.ok { wallclock := env.wallclock } }

/-- Embeds the catch clause of `Executor#resume()`:
`catch (reason) { this.fsm.transitionTo("raising"); return await this.raise(reason); }`.
Passes successes and the out-of-fuel artifact through unchanged. -/
def catchReason (env : Env) (fuel : Nat) (r : StepResult) : StepResult :=
  match r.out with
  | Except.ok _ => r
  | Except.error RunErr.outOfFuel => r
  | Except.error (RunErr.thrown reason) =>
      match fuel with
      | 0 => { events := r.events, exec := r.exec,
               out := Except.error RunErr.outOfFuel }
      | Nat.succ f =>
          match transitionTo r.exec.fsmSt ExecState.raising with
          | Except.error e => thrownResult r.events r.exec e
          | Except.ok st =>
              prependEvents r.events
                (raiseStep env f { r.exec with fsmSt := st } reason)

/-- Embeds `Executor#supervise(request)`: assert `supervising`, invoke the
user strategy `stance.behavior.supervise(context, request)`.  On success,
dispatch `request.response(effect)` and re-enter `resume` after
transitioning to `sleeping`.  On failure, first
`await dispatchSupervisionResponse(request.response("stop"))`, then
transition to `raising` and escalate the strategy's thrown reason through
`raise`. -/
def superviseStep (env : Env) (fuel : Nat) (s : Exec) (request : SupRequest) :
    StepResult :=
  match fuel with
  | 0 => noFuel s
  | Nat.succ f =>
      match assertState s.fsmSt ExecState.supervising with
      | Except.error e => thrownResult [] s e
      | Except.ok _ =>
          let context := processContext s
          match env.behaviorSupervise s.stance.behaviorId context request with
          | Except.error reason =>
              match transitionTo s.fsmSt ExecState.raising with
              | Except.error e =>
                  thrownResult
                    [Event.superviseStrategyCall request,
                      Event.dispatchSupervisionResponse
                        (request.response Effect.stop)] s e
              | Except.ok st =>
                  prependEvents
                    [Event.superviseStrategyCall request,
                      Event.dispatchSupervisionResponse
                        (request.response Effect.stop)]
                    (raiseStep env f { s with fsmSt := st } reason)
          | Except.ok effect =>
              match transitionTo s.fsmSt ExecState.sleeping with
              | Except.error e =>
                  thrownResult
                    [Event.superviseStrategyCall request,
                      Event.dispatchSupervisionResponse
                        (request.response effect)] s e
              | Except.ok st =>
                  prependEvents
                    [Event.superviseStrategyCall request,
                      Event.dispatchSupervisionResponse
                        (request.response effect)]
                    (resume env f { s with fsmSt := st })

/-- Embeds `Executor#receive(message)`: assert `receiving`, invoke
`stance.behavior(context, payload)`.  On success `become` the returned
stance (assert `receiving` again), transition to `sleeping` and re-enter
`resume`; on failure transition to `raising` and `raise` the thrown
reason (the message is consumed either way). -/
def receiveStep (env : Env) (fuel : Nat) (s : Exec) (message : Msg) :
    StepResult :=
  match fuel with
  | 0 => noFuel s
  | Nat.succ f =>
      match assertState s.fsmSt ExecState.receiving with
      | Except.error e => thrownResult [] s e
      | Except.ok _ =>
          let context := processContext s
          match env.behaviorHandle s.stance.behaviorId context message.payload with
          | Except.error reason =>
              match transitionTo s.fsmSt ExecState.raising with
              | Except.error e =>
                  thrownResult [Event.behaviorCall message.payload] s e
              | Except.ok st =>
                  prependEvents [Event.behaviorCall message.payload]
                    (raiseStep env f { s with fsmSt := st } reason)
          | Except.ok nextStance =>
              match assertState s.fsmSt ExecState.receiving with
              | Except.error e =>
                  thrownResult [Event.behaviorCall message.payload] s e
              | Except.ok _ =>
                  match transitionTo s.fsmSt ExecState.sleeping with
                  | Except.error e =>
                      thrownResult [Event.behaviorCall message.payload]
                        { s with stance := nextStance } e
                  | Except.ok st =>
                      prependEvents [Event.behaviorCall message.payload]
                        (resume env f { s with stance := nextStance, fsmSt := st })

/-- Embeds `Executor#raise(reason)`: assert `raising`, build a
`Supervision.Request` with a fresh `Supervision.Id`, and await
`context.supervise(request)`.  Effect `resume` re-enters the resume loop;
effect `stop` terminates with the original reason; a throw from
`context.supervise` terminates with the new fatal reason. -/
def raiseStep (env : Env) (fuel : Nat) (s : Exec) (reason : Value) :
    StepResult :=
  match fuel with
  | 0 => noFuel s
  | Nat.succ f =>
      match assertState s.fsmSt ExecState.raising with
      | Except.error e => thrownResult [] s e
      | Except.ok _ =>
          let request : SupRequest :=
            { id := { token := s.nextSupId, idStr := env.freshIdStr s.nextSupId },
              child := s.self, reason := reason }
          let s1 := { s with nextSupId := s.nextSupId + 1 }
          match env.contextSupervise request with
          | Except.error fatal =>
              match transitionTo s1.fsmSt ExecState.terminating with
              | Except.error e =>
                  thrownResult [Event.contextSuperviseCall request] s1 e
              | Except.ok st =>
                  prependEvents [Event.contextSuperviseCall request]
                    (terminate env { s1 with fsmSt := st } fatal)
          | Except.ok Effect.resume =>
              match transitionTo s1.fsmSt ExecState.sleeping with
              | Except.error e =>
                  thrownResult [Event.contextSuperviseCall request] s1 e
              | Except.ok st =>
                  prependEvents [Event.contextSuperviseCall request]
                    (resume env f { s1 with fsmSt := st })
          | Except.ok Effect.stop =>
              match transitionTo s1.fsmSt ExecState.terminating with
              | Except.error e =>
                  thrownResult [Event.contextSuperviseCall request] s1 e
              | Except.ok st =>
                  prependEvents [Event.contextSuperviseCall request]
                    (terminate env { s1 with fsmSt := st } reason)
end

/-- Embeds `Executor#pushMessage(message)`: assert the state is not `end`,
reject a message whose receiver string differs from `self`
(`ExecutorInvariantError`), otherwise push onto the back of the queue. -/
def pushMessage (s : Exec) (message : Msg) : Except Value Exec :=
  match assertNotEnd s.fsmSt with
  | Except.error e => Except.error e
  | Except.ok _ =>
      if URLRef.toString s.self ≠ URLRef.toString message.receiver then
        Except.error
          (Value.executorInvariantError
            ("Can only accept pushMessage for the currently executed process"))
      else Except.ok { s with messages := s.messages ++ [message] }

/-- Embeds `Executor#pushSupervisionRequest(request)`: assert the state is
not `end`, push onto the back of the queue. -/
def pushSupervisionRequest (s : Exec) (request : SupRequest) :
    Except Value Exec :=
  match assertNotEnd s.fsmSt with
  | Except.error e => Except.error e
  | Except.ok _ => Except.ok { s with requests := s.requests ++ [request] }

/-- Embeds the Executor constructor of `core/Host.ts`. -/
def executorNew (self : URLRef) (stance : Stance) : Exec :=
  { self := self, children := [], messages := [], requests := [],
    fsmSt := ExecState.start, stance := stance,
    hasTerminationBeenRequested := false,
    terminationReason := Value.vundefined, nextSupId := 0 }

/-- Embeds `Executor#start()`: assert `start`, transition to `sleeping`. -/
def startExec (s : Exec) : Except Value Exec :=
  match assertState s.fsmSt ExecState.start with
  | Except.error e => Except.error e
  | Except.ok _ =>
      match transitionTo s.fsmSt ExecState.sleeping with
      | Except.error e => Except.error e
      | Except.ok st => Except.ok { s with fsmSt := st }

/-- Embeds `Executor#kill(reason)`: set the termination flag and reason,
then `return this.wake()`.  The body contains no assertion and no throw
site, so it is a total function in every executor state; the `Bool` is the
wake it schedules. -/
def kill (s : Exec) (reason : Value) : Exec × Bool :=
  ({ s with hasTerminationBeenRequested := true, terminationReason := reason },
    true)

/-- Embeds the deferred continuation scheduled by `Executor#wake()`:
`if (this.fsm.test(state => state === "sleeping")) { this.resume(); }`.
The resume step runs only if the executor is sleeping when the continuation
fires; otherwise nothing happens. -/
def wakeDeliver (env : Env) (fuel : Nat) (s : Exec) : List Event × Exec :=
  if s.fsmSt = ExecState.sleeping then
    ((resume env fuel s).events, (resume env fuel s).exec)
  else ([], s)

/-- Embeds one `ExecutorPoolItem` of `core/Scheduling.ts`: the executor
plus its `pendingSupervisionRequests` map.  The map is a JavaScript `Map`
keyed by `Supervision.Id` instances, i.e. by object identity (`SupId` with
its identity `token`); the value is the registered `Deferred`, identified
here by a handle. -/
structure PoolItem where
  executor : Exec
  pendingSupervisionRequests : List (SupId × Nat)

/-- Embeds `ExecutorPool` of `core/Scheduling.ts`: a map from the canonical
URL string of a process reference to its pool item. -/
structure ExecutorPool where
  pool : List (String × PoolItem)

def ExecutorPool.empty : ExecutorPool := { pool := [] }

/-- Embeds `ExecutorPool.keyOf(process)`: `process.url.toString()` (the
memo table only caches this value). -/
def ExecutorPool.keyOf (process : URLRef) : String :=
  URLRef.toString process

/-- Embeds `ExecutorPool#hasProcess`. -/
def ExecutorPool.hasProcess (p : ExecutorPool) (process : URLRef) : Bool :=
  (p.pool.lookup (ExecutorPool.keyOf process)).isSome

/-- Embeds `ExecutorPool#getExecutor`: `HostInvariantError` unless
`hasProcess`. -/
def ExecutorPool.getExecutor (p : ExecutorPool) (process : URLRef) :
    Except Value Exec :=
  match p.pool.lookup (ExecutorPool.keyOf process) with
  | none =>
      Except.error
        (Value.hostInvariantError
          ("get must only be used after checking has"))
  | some item => Except.ok item.executor

/-- Replace the pool item stored under `key` (modelling in-place mutation
of the executor object reachable from the pool). -/
def ExecutorPool.setItem (p : ExecutorPool) (key : String) (item : PoolItem) :
    ExecutorPool :=
  { pool := p.pool.map (fun kv => if kv.1 = key then (key, item) else kv) }

/-- Embeds `ExecutorPool#insertProcess`: `HostInvariantError` when the
process is already referenced, else store a fresh item with an empty
pending map. -/
def ExecutorPool.insertProcess (p : ExecutorPool) (process : URLRef)
    (executor : Exec) : Except Value ExecutorPool :=
  if p.hasProcess process then
    Except.error
      (Value.hostInvariantError ("Process is already referenced by an Executor"))
  else
    Except.ok
      { pool := p.pool ++
          [(ExecutorPool.keyOf process,
            { executor := executor, pendingSupervisionRequests := [] })] }

/-- Embeds `ExecutorPool#deleteProcess`: `HostInvariantError` when the
process is not referenced; drops the item (draining every pending deferred
with it). -/
def ExecutorPool.deleteProcess (p : ExecutorPool) (process : URLRef) :
    Except Value ExecutorPool :=
  if p.hasProcess process then
    Except.ok
      { pool := p.pool.filter (fun kv => kv.1 ≠ ExecutorPool.keyOf process) }
  else Except.error (Value.hostInvariantError ("Process is not referenced"))

/-- Embeds `ExecutorPool#insertDeferredSupervisionRequest`:
`HostInvariantError` when the child process is not referenced or the
request id instance is already a key of the pending map; else register the
deferred under the id instance. -/
def ExecutorPool.insertDeferredSupervisionRequest (p : ExecutorPool)
    (request : SupRequest) (deferred : Nat) : Except Value ExecutorPool :=
  match p.pool.lookup (ExecutorPool.keyOf request.child) with
  | none =>
      Except.error (Value.hostInvariantError ("Child process is not referenced"))
  | some item =>
      if (item.pendingSupervisionRequests.lookup request.id).isSome then
        Except.error
          (Value.hostInvariantError ("Request id is already referenced"))
      else
        Except.ok
          (p.setItem (ExecutorPool.keyOf request.child)
            { item with
                pendingSupervisionRequests :=
                  item.pendingSupervisionRequests ++ [(request.id, deferred)] })

/-- Embeds `ExecutorPool#resolveDeferredSupervisionRequest`:
`HostInvariantError` when the child process is not referenced, and
`HostInvariantError("Request id is not referenced")` when the response's id
instance is not a key of the pending map; else `deferred.resolve(response)`
is called on the registered deferred (returned by handle). -/
def ExecutorPool.resolveDeferredSupervisionRequest (p : ExecutorPool)
    (response : SupResponse) : Except Value Nat :=
  match p.pool.lookup (ExecutorPool.keyOf response.child) with
  | none =>
      Except.error (Value.hostInvariantError ("Child process is not referenced"))
  | some item =>
      match item.pendingSupervisionRequests.lookup response.id with
      | none =>
          Except.error
            (Value.hostInvariantError ("Request id is not referenced"))
      | some deferred => Except.ok deferred

/-- Embeds the `Packet.Packet` union of `core/Packet.ts`. -/
inductive Packet where
  | message (m : Msg)
  | supervisionRequest (r : SupRequest)
  | supervisionResponse (r : SupResponse)
  | schedulingCreate (child : URLRef) (stance : Stance)
  | schedulingTerminate (target : URLRef) (reason : Value)

/-- Result of one `Host#receive` dispatch: packets published through
`Host.Context#publish`, the pool afterwards, the executors for which a
wake was scheduled, and normal completion or the thrown value. -/
structure HostStep where
  published : List Packet
  pool : ExecutorPool
  wakes : List URLRef
  out : Except Value Unit

/-- Embeds `Host#receiveMessage(message)` of `node-cluster/Worker.ts`.  The
parameter is declared as a `Message.Message` but `Host#receive` actually
passes `packet.payload`, so the argument is an arbitrary dynamic value: for
a non-`Message` value the property accesses inside
`ExecutorPool.keyOf(message.receiver)` fail with a `TypeError`.  For a
`Message` value: `HostInvariantError` when the receiver has no local
executor, else push the message into that executor and wake it. -/
def Host.receiveMessage (v : Value) (p : ExecutorPool) : HostStep :=
  match v with
  | Value.vmsg message =>
      if p.hasProcess message.receiver then
        match p.getExecutor message.receiver with
        | Except.error e =>
            { published := [], pool := p, wakes := [], out := Except.error e }
        | Except.ok ex =>
            match pushMessage ex message with
            | Except.error e =>
                { published := [], pool := p, wakes := [], out := Except.error e }
            | Except.ok ex1 =>
                match p.pool.lookup (ExecutorPool.keyOf message.receiver) with
                | none =>
                    { published := [], pool := p, wakes := [],
                      out := Except.error
                        (Value.hostInvariantError
               ("Local process should have an executor")) }
                | some item =>
                    { published := [],
                      pool := p.setItem (ExecutorPool.keyOf message.receiver)
                        { item with executor := ex1 },
                      wakes := [message.receiver], out := Except.ok () }
      else
        { published := [], pool := p, wakes := [],
          out := Except.error
            (Value.hostInvariantError ("Local process should have an executor")) }
  | _ =>
      { published := [], pool := p, wakes := [],
        out := Except.error
          (Value.typeError
            ("Cannot read properties of a non-Message payload")) }

/-- Embeds `Host#receiveSupervisionRequest(request)`: when the parent of
`request.child` is not local, publish a `stop` response and throw a
`HostInvariantError`; else push the request into the parent's executor and
wake it. -/
def Host.receiveSupervisionRequest (request : SupRequest) (p : ExecutorPool) :
    HostStep :=
  let parentRef := URLReference.parent request.child
  if p.hasProcess parentRef then
    match p.getExecutor parentRef with
    | Except.error e =>
        { published := [], pool := p, wakes := [], out := Except.error e }
    | Except.ok ex =>
        match pushSupervisionRequest ex request with
        | Except.error e =>
            { published := [], pool := p, wakes := [], out := Except.error e }
        | Except.ok ex1 =>
            match p.pool.lookup (ExecutorPool.keyOf parentRef) with
            | none =>
                { published := [], pool := p, wakes := [],
                  out := Except.error
                    (Value.hostInvariantError
                      ("Local process should have an executor")) }
            | some item =>
                { published := [],
                  pool := p.setItem (ExecutorPool.keyOf parentRef)
                    { item with executor := ex1 },
                  wakes := [parentRef], out := Except.ok () }
  else
    { published :=
        [Packet.supervisionResponse
          { id := request.id, child := request.child, effect := Effect.stop }],
      pool := p, wakes := [],
      out := Except.error
        (Value.hostInvariantError ("Local process should have an executor")) }

/-- Embeds `Host#receiveSupervisionResponse(response)`:
`executorPool.resolveDeferredSupervisionRequest(response)`. -/
def Host.receiveSupervisionResponse (response : SupResponse)
    (p : ExecutorPool) : HostStep :=
  match p.resolveDeferredSupervisionRequest response with
  | Except.error e =>
      { published := [], pool := p, wakes := [], out := Except.error e }
  | Except.ok _ =>
      { published := [], pool := p, wakes := [], out := Except.ok () }

/-- Embeds `Host#receiveCreate(create)`: construct an Executor for the
child, `start()` it, schedule a wake, and insert it into the pool. -/
def Host.receiveCreate (child : URLRef) (stance : Stance) (p : ExecutorPool) :
    HostStep :=
  match startExec (executorNew child stance) with
  | Except.error e =>
      { published := [], pool := p, wakes := [], out := Except.error e }
  | Except.ok ex =>
      match p.insertProcess child ex with
      | Except.error e =>
          { published := [], pool := p, wakes := [child],
            out := Except.error e }
      | Except.ok p1 =>
          { published := [], pool := p1, wakes := [child],
            out := Except.ok () }

/-- Embeds `Host#receiveTerminate(terminate)`: `HostInvariantError` when
the target has no local executor, else `kill(reason)` it (which schedules a
wake). -/
def Host.receiveTerminate (target : URLRef) (reason : Value)
    (p : ExecutorPool) : HostStep :=
  if p.hasProcess target then
    match p.getExecutor target with
    | Except.error e =>
        { published := [], pool := p, wakes := [], out := Except.error e }
    | Except.ok ex =>
        match p.pool.lookup (ExecutorPool.keyOf target) with
        | none =>
            { published := [], pool := p, wakes := [],
              out := Except.error
                (Value.hostInvariantError
                  ("Local process should have an executor")) }
        | some item =>
            { published := [],
              pool := p.setItem (ExecutorPool.keyOf target)
                { item with executor := (kill ex reason).1 },
              wakes := [target], out := Except.ok () }
  else
    { published := [], pool := p, wakes := [],
      out := Except.error
        (Value.hostInvariantError ("Local process should have an executor")) }

/-- Embeds `Host#receive(packet)` of `node-cluster/Worker.ts`.  Note the
`Message` branch of the source: `return await this.receiveMessage(packet.payload)`
passes the packet's payload, not the packet itself. -/
def Host.receive (packet : Packet) (p : ExecutorPool) : HostStep :=
  match packet with
  | Packet.message m => Host.receiveMessage m.payload p
  | Packet.supervisionRequest r => Host.receiveSupervisionRequest r p
  | Packet.supervisionResponse r => Host.receiveSupervisionResponse r p
  | Packet.schedulingCreate child stance => Host.receiveCreate child stance p
  | Packet.schedulingTerminate target reason =>
      Host.receiveTerminate target reason p

/-- Embeds `Host#createProcess(parent, stance, name)`: derive
`child = parent.child(name)`, publish `new Scheduling.Create(child, stance)`,
and return `child`. -/
def Host.createProcess (parent : URLRef) (stance : Stance) (name : String) :
    Packet × URLRef :=
  (Packet.schedulingCreate (URLReference.child parent name) stance,
    URLReference.child parent name)

/-! Concrete fixtures used by witnesses and counterexamples. -/

def refAX : URLRef := { scheme := ("proc"), host := ("a"), path := [("x")] }

def refAXY : URLRef :=
  { scheme := ("proc"), host := ("a"), path := [("x"), ("y")] }

def refProbe : URLRef :=
  { scheme := ("proc"), host := ("a"), path := [("probe")] }

def stance0 : Stance := { state := Value.vundefined, behaviorId := 0 }

def exAX : Exec := { executorNew refAX stance0 with fsmSt := ExecState.sleeping }

def env0 : Env :=
  { wallclock := 0
    freshIdStr := fun _ => ("id")
    behaviorHandle := fun _ _ _ => Except.error (Value.vstr ("boom"))
    behaviorSupervise := fun _ _ _ => Except.ok Effect.resume
    contextSupervise := fun _ => Except.ok Effect.resume
    releaseProcess := fun _ => Except.ok () }

def pool1 : ExecutorPool :=
  { pool := [(ExecutorPool.keyOf refAX,
      { executor := exAX, pendingSupervisionRequests := [] })] }

def mHi : Msg := Msg.mk refProbe refAX (Value.vstr ("hi"))

def mInner : Msg := Msg.mk refProbe refAX (Value.vstr ("z"))

def mOuter : Msg := Msg.mk refProbe refAX (Value.vmsg mInner)

/-- C1: the claim says `Host.receive` on a `Message` packet `m` whose
receiver is locally registered delivers exactly `m` to the receiver's
executor via `pushMessage` and `wake`.  The source instead passes
`packet.payload` to `receiveMessage`: with an executor registered for
`proc://a/x` and the packet `mHi` (receiver `proc://a/x`, payload the
string `hi`), dispatch fails with a `TypeError` and nothing is delivered;
and when the payload happens to be itself a `Message` (`mOuter` carrying
`mInner`), it is the payload `mInner` — not the packet `mOuter` — that is
pushed into the executor. -/
theorem claim_C1_receive_delivers_payload_not_packet :
    Host.receive (Packet.message mHi) pool1 =
      { published := [], pool := pool1, wakes := [],
        out := Except.error
          (Value.typeError
            ("Cannot read properties of a non-Message payload")) } ∧
    Host.receive (Packet.message mOuter) pool1 =
      { published := [],
        pool := { pool := [(ExecutorPool.keyOf refAX,
          { executor := { exAX with messages := [mInner] },
            pendingSupervisionRequests := [] })] },
        wakes := [refAX], out := Except.ok () } :=
  ⟨rfl, rfl⟩

/-- C2: the claim says a sleeping executor with no termination request and
both queues empty completes `resume` without an invariant error, staying
`sleeping` with a fresh `Tick`.  The code instead runs
`this.fsm.transitionTo("sleeping")` while already in `sleeping`, and
`allowedExecutorStateTransitions` does not allow `sleeping → sleeping`, so
an `FSMInvariantError` is thrown and no `Tick` is returned (the executor
does stay in `sleeping`). -/
theorem claim_C2_idle_resume_raises_invariant_error :
    resume env0 1 exAX =
      { events := [], exec := exAX,
        out := Except.error (RunErr.thrown (Value.fsmInvariantError
          (("Transition from sleeping to sleeping is not allowed")))) } :=
  rfl

/-- C4: the claim says `child(name)` appends one path segment, `parent`
strips one, `r.child(n).parent = r`, and the process at `proc://a/x`
spawning `y` yields `proc://a/x/y` with parent `proc://a/x`.  Under the
URL resolution the code actually performs, `child` replaces the last
segment (`proc://a/x` child `y` is `proc://a/y`, not `proc://a/x/y`),
`parent` strips two segments (`proc://a/x/y` parent is `proc://a/`, not
`proc://a/x`), `r.child(n).parent ≠ r`, and `Host.createProcess` at
`proc://a/x` with name `y` returns `proc://a/y`. -/
theorem claim_C4_child_parent_resolution_bug :
    URLReference.child refAX ("y") =
      { scheme := ("proc"), host := ("a"), path := [("y")] } ∧
    URLReference.child refAX ("y") ≠ refAXY ∧
    URLReference.parent refAXY =
      { scheme := ("proc"), host := ("a"), path := [("")] } ∧
    URLReference.parent refAXY ≠ refAX ∧
    URLReference.parent (URLReference.child refAX ("y")) ≠ refAX ∧
    (Host.createProcess refAX stance0 ("y")).2 =
      { scheme := ("proc"), host := ("a"), path := [("y")] } :=
  ⟨rfl, by decide, rfl, by decide, by decide, rfl⟩

def envRelFail : Env :=
  { env0 with releaseProcess := fun _ => Except.error (Value.vstr ("release failed")) }

def exTerm : Exec := { exAX with fsmSt := ExecState.terminating }

/-- C6 counterexample: with `releaseProcess` failing with the plain value
`release failed`, `terminate` rethrows exactly that raw value, which is
not an `InvariantError` — contradicting the claim that `terminate` raises
an invariant error when `releaseProcess` fails. -/
theorem claim_C6_counterexample :
    (terminate envRelFail exTerm (Value.vstr ("kill"))).out =
      Except.error (RunErr.thrown (Value.vstr ("release failed"))) ∧
    isInvariantErrorValue (Value.vstr ("release failed")) = false :=
  ⟨rfl, rfl⟩

/-- C6 amended: for every executor in the `terminating` state,
`terminate(reason)` calls `context.releaseProcess(self)`; if that fails,
the raw failure propagates out of `terminate` unwrapped (the
`ExecutorInvariantError` wrapping exists only in the earlier-draft
`core/Executor.ts`); otherwise the executor transitions
`terminating → end` and `end()` returns a fresh `Tick`. -/
theorem claim_C6_amended (env : Env) (s : Exec) (reason : Value)
    (h : s.fsmSt = ExecState.terminating) :
    (∀ e, env.releaseProcess s.self = Except.error e →
      terminate env s reason =
        { events := [Event.releaseProcessCall s.self], exec := s,
          out := Except.error (RunErr.thrown e) }) ∧
    (env.releaseProcess s.self = Except.ok () →
      terminate env s reason =
        { events := [Event.releaseProcessCall s.self, Event.tickCall],
          exec := { s with fsmSt := ExecState.end_ },
          out := Except.ok { wallclock := env.wallclock } }) := by
  constructor
  · intro e he
    simp [terminate, assertState, h, he, thrownResult]
  · intro he
    simp [terminate, assertState, h, he, transitionTo,
      allowedExecutorStateTransitions, prependEvents, endStep]

/-- Witness for the amended C6: both branches evaluated at concrete
inputs. -/
theorem claim_C6_amended_witness :
    terminate envRelFail exTerm (Value.vstr ("kill")) =
      { events := [Event.releaseProcessCall exTerm.self], exec := exTerm,
        out := Except.error (RunErr.thrown (Value.vstr ("release failed"))) } ∧
    terminate env0 exTerm (Value.vstr ("kill")) =
      { events := [Event.releaseProcessCall exTerm.self, Event.tickCall],
        exec := { exTerm with fsmSt := ExecState.end_ },
        out := Except.ok { wallclock := 0 } } :=
  ⟨(claim_C6_amended envRelFail exTerm (Value.vstr ("kill")) rfl).1
      (Value.vstr ("release failed")) rfl,
    (claim_C6_amended env0 exTerm (Value.vstr ("kill")) rfl).2 rfl⟩

/-- Helper: the catch clause of `resume` only ever appends to the trace of
the result it wraps. -/
theorem catchReason_events_prefix (env : Env) (fuel : Nat) (r : StepResult) :
    ∃ tail, (catchReason env fuel r).events = r.events ++ tail := by
  obtain ⟨evs, ex, out⟩ := r
  cases out with
  | ok t => exact ⟨[], by simp [catchReason]⟩
  | error e =>
    cases e with
    | outOfFuel => exact ⟨[], by simp [catchReason]⟩
    | thrown reason =>
      cases fuel with
      | zero => exact ⟨[], by simp [catchReason]⟩
      | succ f =>
        cases htr : transitionTo ex.fsmSt ExecState.raising with
        | error e2 => exact ⟨[], by simp [catchReason, htr, thrownResult]⟩
        | ok st =>
          exact ⟨(raiseStep env f { ex with fsmSt := st } reason).events,
            by simp [catchReason, htr, prependEvents]⟩

/-- Helper: a supervise step begins by invoking the user strategy. -/
theorem superviseStep_events_cons (env : Env) (f : Nat) (s : Exec)
    (request : SupRequest) (h : s.fsmSt = ExecState.supervising) :
    ∃ tail, (superviseStep env (f + 1) s request).events =
      Event.superviseStrategyCall request :: tail := by
  cases hb : env.behaviorSupervise s.stance.behaviorId (processContext s) request with
  | error reason =>
    refine ⟨Event.dispatchSupervisionResponse (request.response Effect.stop) ::
      (raiseStep env f { s with fsmSt := ExecState.raising } reason).events, ?_⟩
    simp [superviseStep, assertState, h, hb, transitionTo,
      allowedExecutorStateTransitions, prependEvents]
  | ok effect =>
    refine ⟨Event.dispatchSupervisionResponse (request.response effect) ::
      (resume env f { s with fsmSt := ExecState.sleeping }).events, ?_⟩
    simp [superviseStep, assertState, h, hb, transitionTo,
      allowedExecutorStateTransitions, prependEvents]

/-- Helper: a receive step begins by invoking the user behavior on the
message payload. -/
theorem receiveStep_events_cons (env : Env) (f : Nat) (s : Exec)
    (message : Msg) (h : s.fsmSt = ExecState.receiving) :
    ∃ tail, (receiveStep env (f + 1) s message).events =
      Event.behaviorCall message.payload :: tail := by
  cases hb : env.behaviorHandle s.stance.behaviorId (processContext s) message.payload with
  | error reason =>
    refine ⟨(raiseStep env f { s with fsmSt := ExecState.raising } reason).events, ?_⟩
    simp [receiveStep, assertState, h, hb, transitionTo,
      allowedExecutorStateTransitions, prependEvents]
  | ok nextStance =>
    refine ⟨(resume env f
      { s with stance := nextStance, fsmSt := ExecState.sleeping }).events, ?_⟩
    simp [receiveStep, assertState, h, hb, transitionTo,
      allowedExecutorStateTransitions, prependEvents]

/-- Helper: a terminate step begins by calling `releaseProcess(self)`. -/
theorem terminate_events_cons (env : Env) (s : Exec) (reason : Value)
    (h : s.fsmSt = ExecState.terminating) :
    ∃ tail, (terminate env s reason).events =
      Event.releaseProcessCall s.self :: tail := by
  cases hrel : env.releaseProcess s.self with
  | error e =>
    exact ⟨[], by simp [terminate, assertState, h, hrel, thrownResult]⟩
  | ok u =>
    exact ⟨[Event.tickCall], by simp [terminate, assertState, h, hrel,
      transitionTo, allowedExecutorStateTransitions, prependEvents, endStep]⟩

/-- C3: on every `resume` from `sleeping`, a requested termination
transitions to `terminating` and terminates (the first observable call is
`releaseProcess`); otherwise a pending supervision request is popped first
and handled in `supervising` (the first observable call is the user
supervision strategy on the front request); a message is popped and
handled in `receiving` (first observable call: the user behavior on the
front message's payload) only when no supervision request is pending.  In
particular, when both queues are non-empty the supervision request is
consumed before any message. -/
theorem claim_C3_resume_arbitration (env : Env) (f : Nat) (s : Exec)
    (hsleep : s.fsmSt = ExecState.sleeping) :
    (s.hasTerminationBeenRequested = true →
      (resume env (f + 2) s).events.head? =
        some (Event.releaseProcessCall s.self)) ∧
    (s.hasTerminationBeenRequested = false →
      ∀ request rest, s.requests = request :: rest →
      (resume env (f + 2) s).events.head? =
        some (Event.superviseStrategyCall request)) ∧
    (s.hasTerminationBeenRequested = false → s.requests = [] →
      ∀ message rest, s.messages = message :: rest →
      (resume env (f + 2) s).events.head? =
        some (Event.behaviorCall message.payload)) := by
  refine ⟨?_, ?_, ?_⟩
  · intro ht
    have hres : resume env (f + 2) s =
        catchReason env (f + 1)
          (terminate env { s with fsmSt := ExecState.terminating }
            s.terminationReason) := by
      simp [resume, assertState, hsleep, ht, transitionTo,
        allowedExecutorStateTransitions]
    rw [hres]
    obtain ⟨tail2, htail2⟩ := catchReason_events_prefix env (f + 1)
      (terminate env { s with fsmSt := ExecState.terminating } s.terminationReason)
    rw [htail2]
    obtain ⟨tail, htail⟩ := terminate_events_cons env
      { s with fsmSt := ExecState.terminating } s.terminationReason (by simp)
    rw [htail]
    simp
  · intro ht request rest hreq
    have hres : resume env (f + 2) s =
        catchReason env (f + 1)
          (superviseStep env (f + 1)
            { s with requests := rest, fsmSt := ExecState.supervising } request) := by
      simp [resume, assertState, hsleep, ht, hreq, transitionTo,
        allowedExecutorStateTransitions]
    rw [hres]
    obtain ⟨tail2, htail2⟩ := catchReason_events_prefix env (f + 1)
      (superviseStep env (f + 1)
        { s with requests := rest, fsmSt := ExecState.supervising } request)
    rw [htail2]
    obtain ⟨tail, htail⟩ := superviseStep_events_cons env f
      { s with requests := rest, fsmSt := ExecState.supervising } request (by simp)
    rw [htail]
    simp
  · intro ht hreq message rest hmsg
    have hres : resume env (f + 2) s =
        catchReason env (f + 1)
          (receiveStep env (f + 1)
            { s with messages := rest, fsmSt := ExecState.receiving } message) := by
      simp [resume, assertState, hsleep, ht, hreq, hmsg, transitionTo,
        allowedExecutorStateTransitions]
    rw [hres]
    obtain ⟨tail2, htail2⟩ := catchReason_events_prefix env (f + 1)
      (receiveStep env (f + 1)
        { s with messages := rest, fsmSt := ExecState.receiving } message)
    rw [htail2]
    obtain ⟨tail, htail⟩ := receiveStep_events_cons env f
      { s with messages := rest, fsmSt := ExecState.receiving } message (by simp)
    rw [htail]
    simp

def req0 : SupRequest :=
  { id := { token := 0, idStr := ("u") }, child := refAX,
    reason := Value.vstr ("boom") }

/-- Witness for C3: with both a message and a supervision request queued,
the supervision request is handled first; with only a message queued the
behavior runs; with termination requested the executor terminates. -/
theorem claim_C3_witness :
    (resume env0 2 { exAX with requests := [req0], messages := [mInner] }).events.head? =
      some (Event.superviseStrategyCall req0) ∧
    (resume env0 2 { exAX with messages := [mInner] }).events.head? =
      some (Event.behaviorCall mInner.payload) ∧
    (resume env0 2 { exAX with hasTerminationBeenRequested := true }).events.head? =
      some (Event.releaseProcessCall refAX) :=
  ⟨(claim_C3_resume_arbitration env0 0
      { exAX with requests := [req0], messages := [mInner] } rfl).2.1 rfl req0 [] rfl,
    (claim_C3_resume_arbitration env0 0
      { exAX with messages := [mInner] } rfl).2.2 rfl rfl mInner [] rfl,
    (claim_C3_resume_arbitration env0 0
      { exAX with hasTerminationBeenRequested := true } rfl).1 rfl⟩

/-- Helper: a raise step begins by calling `context.supervise` with a
fresh-id request carrying the raising executor and the raised reason. -/
theorem raiseStep_events_cons (env : Env) (f : Nat) (s : Exec) (reason : Value)
    (h : s.fsmSt = ExecState.raising) :
    ∃ tail, (raiseStep env (f + 1) s reason).events =
      Event.contextSuperviseCall
        { id := { token := s.nextSupId, idStr := env.freshIdStr s.nextSupId },
          child := s.self, reason := reason } :: tail := by
  cases hc : env.contextSupervise
      { id := { token := s.nextSupId, idStr := env.freshIdStr s.nextSupId },
        child := s.self, reason := reason } with
  | error fatal =>
    refine ⟨(terminate env
      { s with nextSupId := s.nextSupId + 1, fsmSt := ExecState.terminating }
      fatal).events, ?_⟩
    simp [raiseStep, assertState, h, hc, transitionTo,
      allowedExecutorStateTransitions, prependEvents]
  | ok effect =>
    cases effect with
    | resume =>
      refine ⟨(resume env f
        { s with nextSupId := s.nextSupId + 1, fsmSt := ExecState.sleeping }).events, ?_⟩
      simp [raiseStep, assertState, h, hc, transitionTo,
        allowedExecutorStateTransitions, prependEvents]
    | stop =>
      refine ⟨(terminate env
        { s with nextSupId := s.nextSupId + 1, fsmSt := ExecState.terminating }
        reason).events, ?_⟩
      simp [raiseStep, assertState, h, hc, transitionTo,
        allowedExecutorStateTransitions, prependEvents]

/-- C5: for an executor handling a supervision request in `supervising`:
if the user strategy throws `r`, the executor first publishes
`request.response("stop")` via `dispatchSupervisionResponse` and only then
enters its own raise path, escalating a fresh-id request whose reason is
`r` through `context.supervise`; if the strategy succeeds with `e`, the
executor publishes `request.response(e)` and returns to `sleeping`. -/
theorem claim_C5_supervise_effects (env : Env) (f : Nat) (s : Exec)
    (request : SupRequest) (hsup : s.fsmSt = ExecState.supervising) :
    (∀ r, env.behaviorSupervise s.stance.behaviorId (processContext s) request =
        Except.error r →
      (superviseStep env (f + 2) s request).events.take 3 =
        [Event.superviseStrategyCall request,
          Event.dispatchSupervisionResponse (request.response Effect.stop),
          Event.contextSuperviseCall
            { id := { token := s.nextSupId, idStr := env.freshIdStr s.nextSupId },
              child := s.self, reason := r }]) ∧
    (∀ e, env.behaviorSupervise s.stance.behaviorId (processContext s) request =
        Except.ok e →
      (superviseStep env (f + 2) s request).events.take 2 =
        [Event.superviseStrategyCall request,
          Event.dispatchSupervisionResponse (request.response e)] ∧
      (s.hasTerminationBeenRequested = false → s.requests = [] → s.messages = [] →
        (superviseStep env (f + 2) s request).exec.fsmSt = ExecState.sleeping)) := by
  constructor
  · intro r hb
    have hstep : superviseStep env (f + 2) s request =
        prependEvents
          [Event.superviseStrategyCall request,
            Event.dispatchSupervisionResponse (request.response Effect.stop)]
          (raiseStep env (f + 1) { s with fsmSt := ExecState.raising } r) := by
      simp [superviseStep, assertState, hsup, hb, transitionTo,
        allowedExecutorStateTransitions]
    rw [hstep]
    obtain ⟨tail, htail⟩ := raiseStep_events_cons env f
      { s with fsmSt := ExecState.raising } r (by simp)
    simp only [prependEvents]
    rw [htail]
    simp
  · intro e hb
    have hstep : superviseStep env (f + 2) s request =
        prependEvents
          [Event.superviseStrategyCall request,
            Event.dispatchSupervisionResponse (request.response e)]
          (resume env (f + 1) { s with fsmSt := ExecState.sleeping }) := by
      simp [superviseStep, assertState, hsup, hb, transitionTo,
        allowedExecutorStateTransitions]
    rw [hstep]
    constructor
    · simp [prependEvents]
    · intro ht hreq hmsg
      have hidle : resume env (f + 1) { s with fsmSt := ExecState.sleeping } =
          thrownResult [] { s with fsmSt := ExecState.sleeping }
            (Value.fsmInvariantError
              (("Transition from sleeping to sleeping is not allowed"))) := by
        simp [resume, assertState, ht, hreq, hmsg, transitionTo,
          allowedExecutorStateTransitions, stateName]
      simp [prependEvents, hidle, thrownResult]

def envSupFail : Env :=
  { env0 with
      behaviorSupervise := fun _ _ _ =>
        Except.error (Value.vstr ("strategy failed")) }

def exSup : Exec := { exAX with fsmSt := ExecState.supervising }

/-- Witness for C5: both strategy outcomes evaluated concretely. -/
theorem claim_C5_witness :
    (superviseStep envSupFail 2 exSup req0).events.take 3 =
      [Event.superviseStrategyCall req0,
        Event.dispatchSupervisionResponse (req0.response Effect.stop),
        Event.contextSuperviseCall
          { id := { token := 0, idStr := ("id") }, child := refAX,
            reason := Value.vstr ("strategy failed") }] ∧
    ((superviseStep env0 2 exSup req0).events.take 2 =
      [Event.superviseStrategyCall req0,
        Event.dispatchSupervisionResponse (req0.response Effect.resume)] ∧
      (exSup.hasTerminationBeenRequested = false → exSup.requests = [] →
        exSup.messages = [] →
        (superviseStep env0 2 exSup req0).exec.fsmSt = ExecState.sleeping)) :=
  ⟨(claim_C5_supervise_effects envSupFail 0 exSup req0 rfl).1
      (Value.vstr ("strategy failed")) rfl,
    (claim_C5_supervise_effects env0 0 exSup req0 rfl).2 Effect.resume rfl⟩

/-- C7: `pushMessage(m)` raises an invariant error when the executor is in
the `end` state; it raises an invariant error when `m.receiver` differs
from the executor's `self` by canonical reference string; in every other
state with a matching receiver it appends `m` to the message queue — hence
the queue invariant that every queued message has `receiver = self` is
preserved. -/
theorem claim_C7_pushMessage_receiver_guard (s : Exec) (m : Msg) :
    (s.fsmSt = ExecState.end_ →
      pushMessage s m =
        Except.error (Value.fsmInvariantError ("Assertion not matched"))) ∧
    (s.fsmSt ≠ ExecState.end_ →
      URLRef.toString m.receiver ≠ URLRef.toString s.self →
      pushMessage s m =
        Except.error (Value.executorInvariantError
          ("Can only accept pushMessage for the currently executed process"))) ∧
    (s.fsmSt ≠ ExecState.end_ →
      URLRef.toString m.receiver = URLRef.toString s.self →
      pushMessage s m = Except.ok { s with messages := s.messages ++ [m] }) ∧
    ((∀ m2 ∈ s.messages, URLRef.toString m2.receiver = URLRef.toString s.self) →
      ∀ s1, pushMessage s m = Except.ok s1 →
      ∀ m2 ∈ s1.messages, URLRef.toString m2.receiver = URLRef.toString s1.self) := by
  have h1 : s.fsmSt = ExecState.end_ →
      pushMessage s m =
        Except.error (Value.fsmInvariantError ("Assertion not matched")) := by
    intro h
    simp [pushMessage, assertNotEnd, h]
  have h2 : s.fsmSt ≠ ExecState.end_ →
      URLRef.toString m.receiver ≠ URLRef.toString s.self →
      pushMessage s m =
        Except.error (Value.executorInvariantError
          ("Can only accept pushMessage for the currently executed process")) := by
    intro h hne
    simp [pushMessage, assertNotEnd, h, Ne.symm hne]
  have h3 : s.fsmSt ≠ ExecState.end_ →
      URLRef.toString m.receiver = URLRef.toString s.self →
      pushMessage s m = Except.ok { s with messages := s.messages ++ [m] } := by
    intro h he
    simp [pushMessage, assertNotEnd, h, he]
  refine ⟨h1, h2, h3, ?_⟩
  intro hinv s1 hok m2 hm2
  by_cases hend : s.fsmSt = ExecState.end_
  · rw [h1 hend] at hok
    cases hok
  · by_cases hrec : URLRef.toString m.receiver = URLRef.toString s.self
    · rw [h3 hend hrec] at hok
      obtain rfl : ({ s with messages := s.messages ++ [m] } : Exec) = s1 := by
        injection hok
      simp only [List.mem_append, List.mem_singleton] at hm2
      rcases hm2 with hm2 | rfl
      · exact hinv m2 hm2
      · exact hrec
    · rw [h2 hend hrec] at hok
      cases hok

/-- Witness for C7: the three `pushMessage` outcomes evaluated at concrete
executors and messages. -/
theorem claim_C7_witness :
    pushMessage { exAX with fsmSt := ExecState.end_ } mInner =
      Except.error (Value.fsmInvariantError ("Assertion not matched")) ∧
    pushMessage exAX (Msg.mk refAX refProbe Value.vundefined) =
      Except.error (Value.executorInvariantError
        ("Can only accept pushMessage for the currently executed process")) ∧
    pushMessage exAX mInner = Except.ok { exAX with messages := [mInner] } :=
  ⟨(claim_C7_pushMessage_receiver_guard
      { exAX with fsmSt := ExecState.end_ } mInner).1 rfl,
    (claim_C7_pushMessage_receiver_guard exAX
      (Msg.mk refAX refProbe Value.vundefined)).2.1 (by decide) (by decide),
    (claim_C7_pushMessage_receiver_guard exAX mInner).2.2.1
      (by decide) (by decide)⟩

/-- C10: `kill(reason)` is total in every executor state including `end`:
it sets the termination flag and reason, leaves the FSM state unchanged,
and schedules a wake whose deferred resume runs only if the executor is
then `sleeping` (so killing an executor at `end` is a silent no-op) — in
contrast to `pushMessage` and `pushSupervisionRequest`, which raise an
invariant error after `end`. -/
theorem claim_C10_kill_total (env : Env) (fuel : Nat) (s : Exec)
    (m : Msg) (request : SupRequest) (reason : Value) :
    kill s reason =
      ({ s with
          hasTerminationBeenRequested := true,
          terminationReason := reason }, true) ∧
    (kill s reason).1.fsmSt = s.fsmSt ∧
    (s.fsmSt ≠ ExecState.sleeping → wakeDeliver env fuel s = ([], s)) ∧
    (s.fsmSt = ExecState.sleeping →
      wakeDeliver env fuel s =
        ((resume env fuel s).events, (resume env fuel s).exec)) ∧
    (s.fsmSt = ExecState.end_ →
      pushMessage s m =
        Except.error (Value.fsmInvariantError ("Assertion not matched")) ∧
      pushSupervisionRequest s request =
        Except.error (Value.fsmInvariantError ("Assertion not matched"))) := by
  refine ⟨rfl, rfl, ?_, ?_, ?_⟩
  · intro h
    simp [wakeDeliver, h]
  · intro h
    simp [wakeDeliver, h]
  · intro h
    constructor
    · simp [pushMessage, assertNotEnd, h]
    · simp [pushSupervisionRequest, assertNotEnd, h]

/-- Witness for C10: killing an executor that has reached `end` succeeds
silently while pushes raise invariant errors there. -/
theorem claim_C10_witness :
    kill { exAX with fsmSt := ExecState.end_ } (Value.vstr ("stop")) =
      ({ exAX with
          fsmSt := ExecState.end_,
          hasTerminationBeenRequested := true,
          terminationReason := Value.vstr ("stop") }, true) ∧
    wakeDeliver env0 5 { exAX with fsmSt := ExecState.end_ } =
      ([], { exAX with fsmSt := ExecState.end_ }) ∧
    (pushMessage { exAX with fsmSt := ExecState.end_ } mInner =
        Except.error (Value.fsmInvariantError ("Assertion not matched")) ∧
      pushSupervisionRequest { exAX with fsmSt := ExecState.end_ } req0 =
        Except.error (Value.fsmInvariantError ("Assertion not matched"))) :=
  ⟨(claim_C10_kill_total env0 5 { exAX with fsmSt := ExecState.end_ } mInner
      req0 (Value.vstr ("stop"))).1,
    (claim_C10_kill_total env0 5 { exAX with fsmSt := ExecState.end_ } mInner
      req0 (Value.vstr ("stop"))).2.2.1 (by decide),
    (claim_C10_kill_total env0 5 { exAX with fsmSt := ExecState.end_ } mInner
      req0 (Value.vstr ("stop"))).2.2.2.2 rfl⟩

set_option maxHeartbeats 1600000 in
/-- Helper: the uuid loop written out (dash before indices 8, 12, 16, 20;
version nibble at index 12; variant nibble at index 16). -/
theorem uuidCreateList_eq (noise : Nat → Fin 16) :
    uuidCreateList noise =
      [hexChar (noise 0).val, hexChar (noise 1).val, hexChar (noise 2).val,
        hexChar (noise 3).val, hexChar (noise 4).val, hexChar (noise 5).val,
        hexChar (noise 6).val, hexChar (noise 7).val, ('-'),
        hexChar (noise 8).val, hexChar (noise 9).val, hexChar (noise 10).val,
        hexChar (noise 11).val, ('-'),
        hexChar 4, hexChar (noise 13).val, hexChar (noise 14).val,
        hexChar (noise 15).val, ('-'),
        hexChar (((noise 16).val &&& 3) ||| 9), hexChar (noise 17).val,
        hexChar (noise 18).val, hexChar (noise 19).val, ('-'),
        hexChar (noise 20).val, hexChar (noise 21).val, hexChar (noise 22).val,
        hexChar (noise 23).val, hexChar (noise 24).val, hexChar (noise 25).val,
        hexChar (noise 26).val, hexChar (noise 27).val, hexChar (noise 28).val,
        hexChar (noise 29).val, hexChar (noise 30).val, hexChar (noise 31).val] := by
  simp [uuidCreateList, List.range_succ]

/-- Helper: `toString(16)` of a nibble is a hexadecimal digit. -/
theorem hexChar_isHexDigit (v : Nat) (h : v < 16) :
    isHexDigit (hexChar v) = true := by
  interval_cases v <;> rfl

/-- Helper: the forced variant nibble stays below 16. -/
theorem variant_nibble_lt : ∀ v : Fin 16, ((v.val &&& 3) ||| 9) < 16 := by
  decide

/-- Helper: `(noise & 3) | 9` renders as the digit 9 or b (both inside the
RFC 4122 variant range 8 to b). -/
theorem variant_nibble_val : ∀ v : Fin 16,
    hexChar ((v.val &&& 3) ||| 9) = ('9') ∨
    hexChar ((v.val &&& 3) ||| 9) = ('b') := by
  decide

/-- C8: for every sequence of random draws, the uuid generator produces a
canonical 8-4-4-4-12 layout: five dash-separated groups of hexadecimal
digits of lengths 8, 4, 4, 4 and 12 (36 characters in total), with the
version nibble (first digit of the third group) equal to 4 and the variant
nibble (first digit of the fourth group) in the range 8 to b. -/
theorem claim_C8_uuid_v4_shape (noise : Nat → Fin 16) :
    ∃ g1 g2 g3 g4 g5 : List Char,
      uuidCreateList noise =
        g1 ++ ('-') :: g2 ++ ('-') :: g3 ++ ('-') :: g4 ++ ('-') :: g5 ∧
      g1.length = 8 ∧ g2.length = 4 ∧ g3.length = 4 ∧ g4.length = 4 ∧
      g5.length = 12 ∧
      (∀ c ∈ g1 ++ g2 ++ g3 ++ g4 ++ g5, isHexDigit c = true) ∧
      g3.head? = some (hexChar 4) ∧ hexChar 4 = ('4') ∧
      (∃ c, g4.head? = some c ∧
        (c = ('8') ∨ c = ('9') ∨ c = ('a') ∨ c = ('b'))) ∧
      (uuidCreate noise).length = 36 := by
  refine ⟨[hexChar (noise 0).val, hexChar (noise 1).val, hexChar (noise 2).val,
      hexChar (noise 3).val, hexChar (noise 4).val, hexChar (noise 5).val,
      hexChar (noise 6).val, hexChar (noise 7).val],
    [hexChar (noise 8).val, hexChar (noise 9).val, hexChar (noise 10).val,
      hexChar (noise 11).val],
    [hexChar 4, hexChar (noise 13).val, hexChar (noise 14).val,
      hexChar (noise 15).val],
    [hexChar (((noise 16).val &&& 3) ||| 9), hexChar (noise 17).val,
      hexChar (noise 18).val, hexChar (noise 19).val],
    [hexChar (noise 20).val, hexChar (noise 21).val, hexChar (noise 22).val,
      hexChar (noise 23).val, hexChar (noise 24).val, hexChar (noise 25).val,
      hexChar (noise 26).val, hexChar (noise 27).val, hexChar (noise 28).val,
      hexChar (noise 29).val, hexChar (noise 30).val, hexChar (noise 31).val],
    ?_, rfl, rfl, rfl, rfl, rfl, ?_, rfl, rfl, ?_, ?_⟩
  · rw [uuidCreateList_eq]
    simp
  · intro c hc
    simp only [List.mem_append, List.mem_cons, List.not_mem_nil, or_false] at hc
    rcases hc with ((((rfl | rfl | rfl | rfl | rfl | rfl | rfl | rfl) |
        (rfl | rfl | rfl | rfl)) |
        (rfl | rfl | rfl | rfl)) |
        (rfl | rfl | rfl | rfl)) |
        (rfl | rfl | rfl | rfl | rfl | rfl | rfl | rfl | rfl | rfl | rfl | rfl)
    case _ => exact hexChar_isHexDigit _ (by omega)
    all_goals first
      | exact hexChar_isHexDigit _ (noise _).isLt
      | exact hexChar_isHexDigit _ (by omega)
      | exact hexChar_isHexDigit _ (variant_nibble_lt (noise 16))
  · exact ⟨hexChar (((noise 16).val &&& 3) ||| 9), rfl, by
      rcases variant_nibble_val (noise 16) with h | h
      · exact Or.inr (Or.inl h)
      · exact Or.inr (Or.inr (Or.inr h))⟩
  · show (String.mk (uuidCreateList noise)).length = 36
    rw [uuidCreateList_eq]
    rfl

/-- C9: the pending supervision map is keyed by `Supervision.Id` object
identity (modelled by the `token`), not by the uuid string: after
registering a deferred under an id instance, a response carrying the very
same instance resolves the registered deferred, while a response carrying
a distinct instance with an equal id string fails with
`HostInvariantError("Request id is not referenced")`. -/
theorem claim_C9_supervision_id_identity (p : URLRef) (ex : Exec)
    (tok tok2 : Nat) (str : String) (reasonV : Value) (d : Nat) (eff : Effect)
    (hne : tok2 ≠ tok) (poolA poolB : ExecutorPool)
    (h1 : ExecutorPool.empty.insertProcess p ex = Except.ok poolA)
    (h2 : poolA.insertDeferredSupervisionRequest
        { id := { token := tok, idStr := str }, child := p, reason := reasonV }
        d = Except.ok poolB) :
    poolB.resolveDeferredSupervisionRequest
        { id := { token := tok, idStr := str }, child := p, effect := eff } =
      Except.ok d ∧
    poolB.resolveDeferredSupervisionRequest
        { id := { token := tok2, idStr := str }, child := p, effect := eff } =
      Except.error (Value.hostInvariantError ("Request id is not referenced")) := by
  have h1e : poolA = { pool := [(ExecutorPool.keyOf p,
      { executor := ex, pendingSupervisionRequests := [] })] } := by
    simp [ExecutorPool.insertProcess, ExecutorPool.empty,
      ExecutorPool.hasProcess, List.lookup] at h1
    exact h1.symm
  subst h1e
  have h2e : poolB = { pool := [(ExecutorPool.keyOf p,
      { executor := ex, pendingSupervisionRequests :=
        [({ token := tok, idStr := str }, d)] })] } := by
    simp [ExecutorPool.insertDeferredSupervisionRequest,
      ExecutorPool.setItem, List.lookup] at h2
    exact h2.symm
  subst h2e
  constructor
  · simp [ExecutorPool.resolveDeferredSupervisionRequest, List.lookup]
  · have hbeq : (({ token := tok2, idStr := str } : SupId) ==
        ({ token := tok, idStr := str } : SupId)) = false := by
      rw [beq_eq_false_iff_ne]
      simp [SupId.mk.injEq, hne]
    simp [ExecutorPool.resolveDeferredSupervisionRequest, List.lookup, hbeq]

def poolA0 : ExecutorPool :=
  { pool := [(ExecutorPool.keyOf refAX,
      { executor := exAX, pendingSupervisionRequests := [] })] }

def poolB0 : ExecutorPool :=
  { pool := [(ExecutorPool.keyOf refAX,
      { executor := exAX, pendingSupervisionRequests :=
        [({ token := 0, idStr := ("u") }, 7)] })] }

/-- Witness for C9: a concrete pool with one registered deferred, resolved
by the same id instance and rejected for a distinct instance with the same
id string. -/
theorem claim_C9_witness :
    poolB0.resolveDeferredSupervisionRequest
        { id := { token := 0, idStr := ("u") }, child := refAX,
          effect := Effect.stop } = Except.ok 7 ∧
    poolB0.resolveDeferredSupervisionRequest
        { id := { token := 1, idStr := ("u") }, child := refAX,
          effect := Effect.stop } =
      Except.error (Value.hostInvariantError ("Request id is not referenced")) :=
  claim_C9_supervision_id_identity refAX exAX 0 1 ("u") (Value.vstr ("boom")) 7
    Effect.stop (by decide) poolA0 poolB0 rfl rfl
